import Mathlib

/-!
Verification of the lifecycle and settings-persistence contract of a Chrome
Manifest V3 extension skeleton.  The repository ships the unit tests of the
background service worker, the design documents with the storage and message
listener snippets, and the e2e fixtures; the background and config scripts
themselves are modelled from the specification, faithful to its words and to
the snippets in the design document.
-/

namespace Caps

/-- A JavaScript value as it can appear in the key-value storage or in a
runtime message: a boolean, a string, or an integer number. -/
inductive JSVal where
  | bool (b : Bool)
  | str (s : String)
  | num (n : Int)
deriving DecidableEq

/-- JavaScript truthiness, the coercion applied when a stored value is
assigned to the checked state of a checkbox. -/
def jsTruthy : JSVal → Bool
  | JSVal.bool b => b
  | JSVal.str s => !s.isEmpty
  | JSVal.num n => n != 0

/-- The single settings key managed by this system. -/
def enableFeatureKey : String := "enableFeature"

/-- The lifecycle reason for a first install. -/
def installReason : String := "install"

/-- The lifecycle reason for an update. -/
def updateReason : String := "update"

/-- A lifecycle reason delivered by the host on a browser update. -/
def chromeUpdateReason : String := "chrome_update"

/-- The status string of the acknowledgment sent by the message listener. -/
def okStatus : String := "ok"

/-- Diagnostic recorded when the storage read rejects. -/
def getFailureLog : String := "storage read failed"

/-- Diagnostic recorded when the storage write rejects. -/
def setFailureLog : String := "storage write failed"

/-- Looks up a key in an association list modelling a storage object. -/
def lookup : List (String × JSVal) → String → Option JSVal
  | [], _ => none
  | kv :: rest, k => if kv.1 = k then some kv.2 else lookup rest k

/-- Updates one key in the durable store, in place if present, appended
otherwise. -/
def setKey : List (String × JSVal) → String → JSVal → List (String × JSVal)
  | [], k, v => [(k, v)]
  | kv :: rest, k, v => if kv.1 = k then (k, v) :: rest else kv :: setKey rest k v

/-- Merges a set payload object into the durable store, key by key. -/
def storeSet (s : List (String × JSVal)) (obj : List (String × JSVal)) : List (String × JSVal) :=
  obj.foldl (fun acc kv => setKey acc kv.1 kv.2) s

/-- Restricts the durable store to the requested keys, as the get callback
result object. -/
def storeGet (s : List (String × JSVal)) (keys : List String) : List (String × JSVal) :=
  keys.filterMap (fun k => (lookup s k).map (fun v => (k, v)))

/-- The observable world around the components: the durable copy held by the
Key-Value Storage Service, the ordered log of set payloads issued, the log of
error diagnostics, and two fault flags saying whether get and set reject. -/
structure Env where
  storage : List (String × JSVal)
  writes : List (List (String × JSVal))
  logs : List String
  getFails : Bool
  setFails : Bool
deriving DecidableEq

/-- Appends an error diagnostic to the log. -/
def Env.logError (env : Env) (msg : String) : Env :=
  { env with logs := env.logs ++ [msg] }

/-- One call to the storage set capability: the call is always issued and
recorded, then either the durable copy is updated and the promise resolves,
or the promise rejects. -/
def Env.storageSet (env : Env) (obj : List (String × JSVal)) : Env × Except String Unit :=
  if env.setFails then
    ({ env with writes := env.writes ++ [obj] }, Except.error setFailureLog)
  else
    ({ env with writes := env.writes ++ [obj],
                storage := storeSet env.storage obj }, Except.ok ())

/-- One call to the storage get capability: either the result object holding
the requested keys resolves, or the promise rejects.  A get never mutates the
store and never records a write. -/
def Env.storageGet (env : Env) (keys : List String) : Env × Except String (List (String × JSVal)) :=
  if env.getFails then
    (env, Except.error getFailureLog)
  else
    (env, Except.ok (storeGet env.storage keys))

/-- Modelled from the spec: the background service worker source is absent
from the repository snapshot, only its unit test and the design document
remain.  The onInstalled listener inspects the reason field; on install it
issues one set of the payload mapping enableFeature to true and catches a
rejection by logging it; on update and on every other reason it performs no
storage mutation.  The Except result is ok exactly when no exception escapes
the listener. -/
def backgroundOnInstalled (env : Env) (reason : String) : Env × Except String Unit :=
  if reason = installReason then
    match env.storageSet [(enableFeatureKey, JSVal.bool true)] with
    | (env1, Except.ok _) => (env1, Except.ok ())
    | (env1, Except.error e) => (env1.logError e, Except.ok ())
  else
    (env, Except.ok ())

/-- Outcome of one activation of the settings surface: the world afterwards,
the displayed checked state of the control, and whether an exception escaped. -/
structure SurfaceResult where
  env : Env
  checked : Bool
  outcome : Except String Unit

/-- Modelled from the spec: the config page source is absent from the
repository snapshot; the design document gives the read snippet, where the
resolved value is the stored one with nullish-coalescing default true.  The
load path reads enableFeature; a present value is coerced to boolean for the
control, an absent key resolves locally to true without any write back, and a
rejected read is caught, logged, and replaced by the same default. -/
def configLoad (env : Env) : SurfaceResult :=
  match env.storageGet [enableFeatureKey] with
  | (env1, Except.ok result) =>
      { env := env1,
        checked :=
          match lookup result enableFeatureKey with
          | some v => jsTruthy v
          | none => true,
        outcome := Except.ok () }
  | (env1, Except.error e) =>
      { env := env1.logError e, checked := true, outcome := Except.ok () }

/-- Modelled from the spec: the change path of the config page.  A toggle to
the new checked state immediately issues exactly one set of the payload
mapping enableFeature to that boolean; the control keeps the user-set state
optimistically, and a rejected write is caught and logged without rollback. -/
def configToggle (env : Env) (newChecked : Bool) : SurfaceResult :=
  match env.storageSet [(enableFeatureKey, JSVal.bool newChecked)] with
  | (env1, Except.ok _) =>
      { env := env1, checked := newChecked, outcome := Except.ok () }
  | (env1, Except.error e) =>
      { env := env1.logError e, checked := newChecked, outcome := Except.ok () }

/-- The acknowledgment object sent back by the runtime message listener. -/
structure MessageResponse where
  status : String
deriving DecidableEq

/-- Modelled from the spec and the service worker pattern in the design
document: the runtime message listener calls sendResponse with an object whose
status field holds the string ok, then returns true to keep the response
channel open; the request and sender are not interpreted. -/
def onMessageListener (request : JSVal) (sender : JSVal) : MessageResponse × Bool :=
  (MessageResponse.mk okStatus, true)

/-- One externally triggered operation of this system, for stating invariants
over arbitrary interleavings. -/
inductive SysOp where
  | lifecycle (reason : String)
  | toggle (v : Bool)
  | load
deriving DecidableEq

/-- Applies one operation to the world, discarding the per-call results. -/
def applySysOp (env : Env) : SysOp → Env
  | SysOp.lifecycle reason => (backgroundOnInstalled env reason).1
  | SysOp.toggle v => (configToggle env v).env
  | SysOp.load => (configLoad env).env

/-- Runs a sequence of operations of this system from a starting world. -/
def runSys (env : Env) (ops : List SysOp) : Env :=
  ops.foldl applySysOp env

/-- The storage schema invariant: whenever enableFeature is present in the
durable store, its value is boolean-typed. -/
def boolTyped (s : List (String × JSVal)) : Prop :=
  ∀ v, lookup s enableFeatureKey = some v → ∃ b, v = JSVal.bool b

/-- A fresh world: empty store, no writes, no logs, storage healthy. -/
def env0 : Env :=
  { storage := [], writes := [], logs := [], getFails := false, setFails := false }

/-- A fresh world whose storage read capability rejects. -/
def envGetFails : Env :=
  { storage := [], writes := [], logs := [], getFails := true, setFails := false }

/-- A fresh world whose storage write capability rejects. -/
def envSetFails : Env :=
  { storage := [], writes := [], logs := [], getFails := false, setFails := true }

lemma lookup_setKey_self (s : List (String × JSVal)) (k : String) (v : JSVal) :
    lookup (setKey s k v) k = some v := by
  induction s with
  | nil => simp [setKey, lookup]
  | cons kv rest ih =>
      by_cases h : kv.1 = k
      · simp [setKey, lookup, h]
      · simp [setKey, lookup, h, ih]

lemma storeSet_single (s : List (String × JSVal)) (k : String) (v : JSVal) :
    storeSet s [(k, v)] = setKey s k v := by
  simp [storeSet, List.foldl]

lemma storageSet_writes (env : Env) (obj : List (String × JSVal)) :
    (env.storageSet obj).1.writes = env.writes ++ [obj] := by
  unfold Env.storageSet
  by_cases h : env.setFails <;> simp [h]

lemma backgroundOnInstalled_install (env : Env) :
    (backgroundOnInstalled env installReason).1.writes
      = env.writes ++ [[(enableFeatureKey, JSVal.bool true)]] ∧
    (backgroundOnInstalled env installReason).2 = Except.ok ()
    ∧ (backgroundOnInstalled env installReason).1.setFails = env.setFails := by
  unfold backgroundOnInstalled Env.storageSet
  by_cases h : env.setFails <;> simp [h, Env.logError]

lemma backgroundOnInstalled_noop (env : Env) (reason : String)
    (h : reason ≠ installReason) :
    backgroundOnInstalled env reason = (env, Except.ok ()) := by
  unfold backgroundOnInstalled
  simp [h]

lemma configToggle_writes (env : Env) (v : Bool) :
    (configToggle env v).env.writes
      = env.writes ++ [[(enableFeatureKey, JSVal.bool v)]] := by
  unfold configToggle Env.storageSet
  by_cases h : env.setFails <;> simp [h, Env.logError]

end Caps

namespace Caps

/-- C1: for a fresh Lifecycle Handler instance, delivering a lifecycle event
with reason install results in exactly one storage write, whose content is
exactly the single-key payload mapping enableFeature to true; delivering an
event with reason update afterward results in zero additional writes. -/
theorem install_seeds_exactly_once (env : Env) (hfresh : env.writes = []) :
    (backgroundOnInstalled env installReason).1.writes
      = [[(enableFeatureKey, JSVal.bool true)]] ∧
    (backgroundOnInstalled (backgroundOnInstalled env installReason).1
        updateReason).1.writes
      = [[(enableFeatureKey, JSVal.bool true)]] := by
  have h1 := (backgroundOnInstalled_install env).1
  have hupd := backgroundOnInstalled_noop
    (backgroundOnInstalled env installReason).1 updateReason (by decide)
  rw [hfresh] at h1
  simp at h1
  exact ⟨h1, by rw [hupd]; exact h1⟩

/-- Witness for C1 at the fresh world. -/
theorem install_seeds_exactly_once_witness :
    env0.writes = [] ∧
    ((backgroundOnInstalled env0 installReason).1.writes
        = [[(enableFeatureKey, JSVal.bool true)]] ∧
      (backgroundOnInstalled (backgroundOnInstalled env0 installReason).1
          updateReason).1.writes
        = [[(enableFeatureKey, JSVal.bool true)]]) :=
  ⟨rfl, install_seeds_exactly_once env0 rfl⟩

/-- C4: each toggle of the UI control issues exactly one storage write whose
payload maps the new control state to the key enableFeature, for either
direction of the toggle. -/
theorem toggle_issues_one_write (env : Env) (v : Bool) :
    (configToggle env v).env.writes
      = env.writes ++ [[(enableFeatureKey, JSVal.bool v)]] :=
  configToggle_writes env v

/-- C5: for every lifecycle event whose reason is not install, the Lifecycle
Handler leaves the world unchanged, performing zero storage writes, and
returns without throwing. -/
theorem non_install_is_noop (env : Env) (reason : String)
    (h : reason ≠ installReason) :
    backgroundOnInstalled env reason = (env, Except.ok ()) :=
  backgroundOnInstalled_noop env reason h

/-- Witness for C5 at the reason chrome_update on a fresh world. -/
theorem non_install_is_noop_witness :
    chromeUpdateReason ≠ installReason ∧
    backgroundOnInstalled env0 chromeUpdateReason = (env0, Except.ok ()) :=
  ⟨by decide, non_install_is_noop env0 chromeUpdateReason (by decide)⟩

/-- C9: for every inbound runtime message, the registered listener sends back
an acknowledgment response object carrying a status field and returns true,
signalling that the response channel stays open. -/
theorem message_listener_acknowledges (request sender : JSVal) :
    (∃ s, (onMessageListener request sender).1 = MessageResponse.mk s) ∧
    (onMessageListener request sender).2 = true :=
  ⟨⟨okStatus, rfl⟩, rfl⟩

/-- C10: the message listener is a constant function of its input, always
responding with status ok and returning true regardless of the payload. -/
theorem message_listener_constant (request sender : JSVal) :
    onMessageListener request sender = (MessageResponse.mk okStatus, true) :=
  rfl

/-- C2: writing a boolean through the change path and then reading on a fresh
surface activation, with no intervening write and a healthy storage service,
displays exactly the written value. -/
theorem write_then_read_round_trip (env : Env) (v : Bool)
    (hset : env.setFails = false) (hget : env.getFails = false) :
    (configLoad (configToggle env v).env).checked = v := by
  unfold configToggle Env.storageSet
  simp [hset]
  unfold configLoad Env.storageGet
  simp [hget, storeSet_single, storeGet, lookup_setKey_self, lookup, jsTruthy]

/-- Witness for C2 at the fresh world with the non-default value false. -/
theorem write_then_read_round_trip_witness :
    env0.setFails = false ∧ env0.getFails = false ∧
    (configLoad (configToggle env0 false).env).checked = false :=
  ⟨rfl, rfl, write_then_read_round_trip env0 false rfl rfl⟩

/-- C3: on a successful load, a present enableFeature value is shown coerced
to boolean, while an absent key makes the control default to true and leaves
the whole world, storage included, untouched: loading writes nothing back. -/
theorem load_resolves_present_or_defaults (env : Env)
    (hget : env.getFails = false) :
    (∀ v, lookup env.storage enableFeatureKey = some v →
        (configLoad env).checked = jsTruthy v) ∧
    (lookup env.storage enableFeatureKey = none →
        (configLoad env).checked = true ∧ (configLoad env).env = env) := by
  unfold configLoad Env.storageGet
  simp [hget, storeGet]
  constructor
  · intro v hv
    simp [hv, lookup]
  · intro hn
    simp [hn, lookup]

/-- Witness for C3 at the fresh world, where the key is absent. -/
theorem load_resolves_present_or_defaults_witness :
    env0.getFails = false ∧
    lookup env0.storage enableFeatureKey = none ∧
    ((configLoad env0).checked = true ∧ (configLoad env0).env = env0) :=
  ⟨rfl, rfl, (load_resolves_present_or_defaults env0 rfl).2 rfl⟩

/-- C6: when the storage read rejects, the load path shows the default true,
no exception escapes, the failure is logged, and neither the durable store
nor the write log changes. -/
theorem read_failure_falls_back (env : Env) (hget : env.getFails = true) :
    (configLoad env).checked = true ∧
    (configLoad env).outcome = Except.ok () ∧
    (configLoad env).env.logs = env.logs ++ [getFailureLog] ∧
    (configLoad env).env.storage = env.storage ∧
    (configLoad env).env.writes = env.writes := by
  unfold configLoad Env.storageGet
  simp [hget, Env.logError]

/-- Witness for C6 at the fresh world with a rejecting read capability. -/
theorem read_failure_falls_back_witness :
    envGetFails.getFails = true ∧
    ((configLoad envGetFails).checked = true ∧
      (configLoad envGetFails).outcome = Except.ok () ∧
      (configLoad envGetFails).env.logs = envGetFails.logs ++ [getFailureLog] ∧
      (configLoad envGetFails).env.storage = envGetFails.storage ∧
      (configLoad envGetFails).env.writes = envGetFails.writes) :=
  ⟨rfl, read_failure_falls_back envGetFails rfl⟩

/-- C7: when the storage write rejects, the change path catches and logs the
error, lets no exception escape, and keeps the control at the user-set value;
the install seed of the Lifecycle Handler is likewise caught and logged
without the handler throwing. -/
theorem write_failure_caught (env : Env) (hset : env.setFails = true) :
    (∀ v, (configToggle env v).outcome = Except.ok () ∧
        (configToggle env v).checked = v ∧
        (configToggle env v).env.logs = env.logs ++ [setFailureLog]) ∧
    (backgroundOnInstalled env installReason).2 = Except.ok () ∧
    (backgroundOnInstalled env installReason).1.logs
      = env.logs ++ [setFailureLog] := by
  constructor
  · intro v
    unfold configToggle Env.storageSet
    simp [hset, Env.logError]
  · unfold backgroundOnInstalled Env.storageSet
    simp [hset, Env.logError]

/-- Witness for C7 at the fresh world with a rejecting write capability. -/
theorem write_failure_caught_witness :
    envSetFails.setFails = true ∧
    ((configToggle envSetFails false).outcome = Except.ok () ∧
      (configToggle envSetFails false).checked = false ∧
      (configToggle envSetFails false).env.logs
        = envSetFails.logs ++ [setFailureLog]) ∧
    ((backgroundOnInstalled envSetFails installReason).2 = Except.ok () ∧
      (backgroundOnInstalled envSetFails installReason).1.logs
        = envSetFails.logs ++ [setFailureLog]) :=
  ⟨rfl, (write_failure_caught envSetFails rfl).1 false,
    (write_failure_caught envSetFails rfl).2⟩

lemma boolTyped_setKey (s : List (String × JSVal)) (b : Bool) :
    boolTyped (setKey s enableFeatureKey (JSVal.bool b)) := by
  intro v hv
  rw [lookup_setKey_self] at hv
  exact ⟨b, (Option.some.inj hv).symm⟩

lemma applySysOp_storage (env : Env) (op : SysOp) (h : boolTyped env.storage) :
    boolTyped (applySysOp env op).storage := by
  cases op with
  | lifecycle reason =>
      by_cases hr : reason = installReason
      · subst hr
        unfold applySysOp backgroundOnInstalled Env.storageSet
        by_cases hs : env.setFails
        · simpa [hs, Env.logError] using h
        · simp [hs, Env.logError, storeSet_single]
          exact boolTyped_setKey env.storage true
      · have hno : applySysOp env (SysOp.lifecycle reason)
            = (backgroundOnInstalled env reason).1 := rfl
        rw [hno, backgroundOnInstalled_noop env reason hr]
        exact h
  | toggle v =>
      unfold applySysOp configToggle Env.storageSet
      by_cases hs : env.setFails
      · simpa [hs, Env.logError] using h
      · simp [hs, Env.logError, storeSet_single]
        exact boolTyped_setKey env.storage v
  | load =>
      unfold applySysOp configLoad Env.storageGet
      by_cases hg : env.getFails
      · simpa [hg, Env.logError] using h
      · simpa [hg] using h

lemma applySysOp_writes (env : Env) (op : SysOp) :
    (applySysOp env op).writes = env.writes ∨
    ∃ b, (applySysOp env op).writes
        = env.writes ++ [[(enableFeatureKey, JSVal.bool b)]] := by
  cases op with
  | lifecycle reason =>
      by_cases hr : reason = installReason
      · subst hr
        exact Or.inr ⟨true, (backgroundOnInstalled_install env).1⟩
      · have hno : applySysOp env (SysOp.lifecycle reason)
            = (backgroundOnInstalled env reason).1 := rfl
        rw [hno, backgroundOnInstalled_noop env reason hr]
        exact Or.inl rfl
  | toggle v =>
      exact Or.inr ⟨v, configToggle_writes env v⟩
  | load =>
      left
      unfold applySysOp configLoad Env.storageGet
      by_cases hg : env.getFails <;> simp [hg, Env.logError]

/-- C8: starting from a store whose enableFeature entry is boolean when
present and a write log of single-key boolean payloads, any sequence of this
system's operations preserves both: every write stores a boolean under the
key enableFeature, and whenever the key is present afterwards its value is
boolean-typed. -/
theorem every_write_boolean (ops : List SysOp) (env : Env)
    (h1 : boolTyped env.storage)
    (h2 : ∀ w ∈ env.writes, ∃ b, w = [(enableFeatureKey, JSVal.bool b)]) :
    boolTyped (runSys env ops).storage ∧
    ∀ w ∈ (runSys env ops).writes,
      ∃ b, w = [(enableFeatureKey, JSVal.bool b)] := by
  induction ops generalizing env with
  | nil => exact ⟨h1, h2⟩
  | cons op rest ih =>
      have hstep := applySysOp_storage env op h1
      have hw : ∀ w ∈ (applySysOp env op).writes,
          ∃ b, w = [(enableFeatureKey, JSVal.bool b)] := by
        rcases applySysOp_writes env op with heq | ⟨b, heq⟩
        · rw [heq]
          exact h2
        · rw [heq]
          intro w hwmem
          rcases List.mem_append.mp hwmem with hin | hin
          · exact h2 w hin
          · exact ⟨b, List.mem_singleton.mp hin⟩
      have hrun : runSys env (op :: rest) = runSys (applySysOp env op) rest := rfl
      rw [hrun]
      exact ih (applySysOp env op) hstep hw

/-- A sample interleaving: install seed, a toggle to false, a load, then an
update event. -/
def c8Ops : List SysOp :=
  [SysOp.lifecycle installReason, SysOp.toggle false, SysOp.load,
    SysOp.lifecycle updateReason]

/-- Witness for C8 on the sample interleaving from the fresh world. -/
theorem every_write_boolean_witness :
    boolTyped (runSys env0 c8Ops).storage ∧
    ∀ w ∈ (runSys env0 c8Ops).writes,
      ∃ b, w = [(enableFeatureKey, JSVal.bool b)] :=
  every_write_boolean c8Ops env0
    (by intro v hv; simp [env0, lookup] at hv)
    (by intro w hw; simp [env0] at hw)

end Caps
